import Mathlib

/-!
Verification of the `cc` package (parsing of C/C++ source files via a
Clang-style engine). The repository holds two revisions of the same
component:

* `src/cc.go` — fingerprints cursors structurally (`kind + "_" + location`),
  the materialized `Node` caches only the source location;
* `src/unnamed/part_000` — fingerprints cursors by the engine's 32-bit
  `HashCursor()`, the materialized `Node` additionally caches `Kind` and
  `Spelling` strings.

The external engine is modelled by a `Cursor` record carrying the values the
code reads from it (`Kind().String()`, `Spelling()`, the presumed location,
`IsNull()`, `HashCursor()`), and the engine-driven visitation of
`cursor.Visit(visit)` is modelled as an explicit trace: the list of
`(cursor, parent)` pairs the engine hands to the callback, in order.
-/

/-- `Location` from the source: a `{file, line, col}` record; `Line` and
`Col` are `uint32` in Go, represented as `Nat` (the code never does
arithmetic on them, so no overflow can occur). -/
structure Location where
  File : String
  Line : Nat
  Col : Nat
deriving DecidableEq, Repr

/-- `Location.String()`: formats as `"<file>:<line>:<col>"`. -/
def Location.render (loc : Location) : String :=
  loc.File ++ ":" ++ toString loc.Line ++ ":" ++ toString loc.Col

/-- Model of the engine's cursor: the data the repository reads from a
`clang.Cursor` — `Kind().String()`, `Spelling()`, the presumed location of
`Location()`, `IsNull()`, and (in the `part_000` revision) `HashCursor()`. -/
structure Cursor where
  KindStr : String
  Spelling : String
  Loc : Location
  IsNull : Bool
  HashCursor : Nat
deriving DecidableEq, Repr

/-- `Node` from `src/unnamed/part_000` (a superset of the `src/cc.go`
`Node`, which lacks the cached `Spelling` and `Kind` fields): a `Body`
cursor handle, cached `Spelling`, `Kind`, `Loc`, and the ordered children.
An inductive is used because Lean structures cannot be recursive. -/
inductive Node : Type where
  | mk (Body : Cursor) (Spelling : String) (Kind : String) (Loc : Location)
      (Children : List Node) : Node

mutual

def nodeDecEq : (a b : Node) → Decidable (a = b)
  | .mk b1 s1 k1 l1 c1, .mk b2 s2 k2 l2 c2 =>
      match decEq b1 b2, decEq s1 s2, decEq k1 k2, decEq l1 l2,
          nodeListDecEq c1 c2 with
      | isTrue hb, isTrue hs, isTrue hk, isTrue hl, isTrue hc =>
          isTrue (by rw [hb, hs, hk, hl, hc])
      | isFalse hb, _, _, _, _ => isFalse (fun h => hb (by cases h; rfl))
      | _, isFalse hs, _, _, _ => isFalse (fun h => hs (by cases h; rfl))
      | _, _, isFalse hk, _, _ => isFalse (fun h => hk (by cases h; rfl))
      | _, _, _, isFalse hl, _ => isFalse (fun h => hl (by cases h; rfl))
      | _, _, _, _, isFalse hc => isFalse (fun h => hc (by cases h; rfl))

def nodeListDecEq : (a b : List Node) → Decidable (a = b)
  | [], [] => isTrue rfl
  | [], _ :: _ => isFalse (fun h => List.noConfusion h)
  | _ :: _, [] => isFalse (fun h => List.noConfusion h)
  | a :: as, b :: bs =>
      match nodeDecEq a b, nodeListDecEq as bs with
      | isTrue h1, isTrue h2 => isTrue (by rw [h1, h2])
      | isFalse h1, _ => isFalse (fun h => h1 (by cases h; rfl))
      | _, isFalse h2 => isFalse (fun h => h2 (by cases h; rfl))

end

instance : DecidableEq Node := nodeDecEq

def Node.Body : Node → Cursor
  | .mk b _ _ _ _ => b

def Node.Spelling : Node → String
  | .mk _ s _ _ _ => s

def Node.Kind : Node → String
  | .mk _ _ k _ _ => k

def Node.Loc : Node → Location
  | .mk _ _ _ l _ => l

def Node.Children : Node → List Node
  | .mk _ _ _ _ cs => cs

/-- `strings.Repeat("\t", n)`. -/
def repeatTab : Nat → String
  | 0 => ""
  | n + 1 => "\t" ++ repeatTab n

mutual

/-- `printTree` from the source: emits one line `indent ++ n.Body.Kind().String()`
(note: the kind is read through the `Body` cursor handle, not from the cached
`Kind` field), then recurses into the children at `indentLevel+1`. The lines
written to standard output are modelled as the returned list. -/
def printTree : Node → Nat → List String
  | .mk b _ _ _ cs, indentLevel =>
      (repeatTab indentLevel ++ b.KindStr) :: printTreeList cs (indentLevel + 1)

/-- The `for _, child := range n.Children` loop of `printTree`. -/
def printTreeList : List Node → Nat → List String
  | [], _ => []
  | c :: cs, i => printTree c i ++ printTreeList cs i

end

/-- `PrintTree` from the source: `printTree(root, 0)`. -/
def PrintTree (root : Node) : List String :=
  printTree root 0

mutual

/-- `Walk` from `src/cc.go`: `f(root)` then `Walk(child, f)` for each child in
order. The Go function returns nothing and acts by side effect; the effect of
the successive invocations of `f` is modelled by threading an accumulator of
type `σ` through them in invocation order. -/
def Walk {σ : Type} (f : σ → Node → σ) : σ → Node → σ
  | s, .mk b sp k l cs => walkList f (f s (.mk b sp k l cs)) cs

/-- The `for _, child := range root.Children` loop of `Walk`. -/
def walkList {σ : Type} (f : σ → Node → σ) : σ → List Node → σ
  | s, [] => s
  | s, c :: cs => walkList f (Walk f s c) cs

end

/-- The trace of nodes on which `Walk` invokes `f`, in invocation order. -/
def walkTrace (root : Node) : List Node :=
  Walk (fun l n => l ++ [n]) [] root

mutual

/-- Modelled from the spec: pre-order visitation order — a node strictly
before all of its descendants, siblings in stored order. Used as the
specification side of the refinement claims about `Walk`. -/
def preOrderSpec : Node → List Node
  | .mk b s k l cs => .mk b s k l cs :: preOrderSpecList cs

def preOrderSpecList : List Node → List Node
  | [] => []
  | c :: cs => preOrderSpec c ++ preOrderSpecList cs

end

mutual

/-- Number of nodes reachable from a node (the node itself plus all
descendants). -/
def nodeCount : Node → Nat
  | .mk _ _ _ _ cs => 1 + nodeCountList cs

def nodeCountList : List Node → Nat
  | [] => 0
  | c :: cs => nodeCount c + nodeCountList cs

end

mutual

theorem walk_append_eq (s : List Node) :
    (n : Node) → Walk (fun l m => l ++ [m]) s n = s ++ preOrderSpec n
  | .mk b sp k l cs => by
      simp only [Walk, preOrderSpec, walkList_append_eq]
      simp

theorem walkList_append_eq (s : List Node) :
    (cs : List Node) → walkList (fun l m => l ++ [m]) s cs = s ++ preOrderSpecList cs
  | [] => by simp [walkList, preOrderSpecList]
  | c :: cs => by
      simp only [walkList, preOrderSpecList, walk_append_eq, walkList_append_eq]
      simp

end

theorem walkTrace_eq_preOrderSpec (n : Node) : walkTrace n = preOrderSpec n := by
  simpa [walkTrace] using walk_append_eq [] n

mutual

theorem preOrderSpec_length :
    (n : Node) → (preOrderSpec n).length = nodeCount n
  | .mk b sp k l cs => by
      simp [preOrderSpec, nodeCount, preOrderSpecList_length cs, Nat.add_comm]

theorem preOrderSpecList_length :
    (cs : List Node) → (preOrderSpecList cs).length = nodeCountList cs
  | [] => by simp [preOrderSpecList, nodeCountList]
  | c :: cs => by
      simp [preOrderSpecList, nodeCountList, preOrderSpec_length c,
        preOrderSpecList_length cs]

end

mutual

theorem printTree_length :
    (n : Node) → (i : Nat) → (printTree n i).length = nodeCount n
  | .mk b sp k l cs, i => by
      simp [printTree, nodeCount, printTreeList_length cs, Nat.add_comm]

theorem printTreeList_length :
    (cs : List Node) → (i : Nat) → (printTreeList cs i).length = nodeCountList cs
  | [], _ => by simp [printTreeList, nodeCountList]
  | c :: cs, i => by
      simp [printTreeList, nodeCountList, printTree_length c,
        printTreeList_length cs]

end

/-- The part of a tree that `printTree` actually consults: the kind string
read through each node's `Body` cursor handle, plus the child structure. -/
inductive KindTree : Type where
  | mk (kindOfBody : String) (children : List KindTree) : KindTree

mutual

def kindShape : Node → KindTree
  | .mk b _ _ _ cs => .mk b.KindStr (kindShapeList cs)

def kindShapeList : List Node → List KindTree
  | [] => []
  | c :: cs => kindShape c :: kindShapeList cs

end

mutual

/-- Rendering of a `KindTree` with the same layout as `printTree`. -/
def renderKind : KindTree → Nat → List String
  | .mk k cs, i => (repeatTab i ++ k) :: renderKindList cs (i + 1)

def renderKindList : List KindTree → Nat → List String
  | [], _ => []
  | c :: cs, i => renderKind c i ++ renderKindList cs i

end

mutual

theorem printTree_eq_renderKind :
    (n : Node) → (i : Nat) → printTree n i = renderKind (kindShape n) i
  | .mk b sp k l cs, i => by
      simp [printTree, kindShape, renderKind, printTreeList_eq cs]

theorem printTreeList_eq :
    (cs : List Node) → (i : Nat) →
      printTreeList cs i = renderKindList (kindShapeList cs) i
  | [], _ => by simp [printTreeList, kindShapeList, renderKindList]
  | c :: cs, i => by
      simp [printTreeList, kindShapeList, renderKindList,
        printTree_eq_renderKind c, printTreeList_eq cs]

end

/-- Two single-node trees whose cached fields (`Spelling`, `Kind`, `Loc`,
`Children`) coincide but whose `Body` cursor handles carry different engine
kinds. -/
def c4CursorA : Cursor :=
  { KindStr := "FunctionDecl", Spelling := "f",
    Loc := { File := "a.c", Line := 1, Col := 1 },
    IsNull := false, HashCursor := 10 }

def c4CursorB : Cursor :=
  { KindStr := "VarDecl", Spelling := "f",
    Loc := { File := "a.c", Line := 1, Col := 1 },
    IsNull := false, HashCursor := 11 }

def c4TreeA : Node :=
  .mk c4CursorA "f" "FunctionDecl" { File := "a.c", Line := 1, Col := 1 } []

def c4TreeB : Node :=
  .mk c4CursorB "f" "FunctionDecl" { File := "a.c", Line := 1, Col := 1 } []

/-- A variant of `c4TreeA` whose cursor differs in spelling and engine hash
but agrees on the kind string: used to witness the amended C4 claim. -/
def c4CursorC : Cursor :=
  { KindStr := "FunctionDecl", Spelling := "g",
    Loc := { File := "b.c", Line := 2, Col := 3 },
    IsNull := false, HashCursor := 12 }

def c4TreeC : Node :=
  .mk c4CursorC "g" "FunctionDecl" { File := "b.c", Line := 2, Col := 3 } []

/-- C4 counterexample: the two trees agree on every cached `Node` field
(`Spelling`, `Kind`, `Loc`, `Children`) and differ only in their engine
cursor handles, yet `PrintTree` emits different output — `printTree` reads
the kind through `n.Body.Kind().String()`, not from the cached field. -/
theorem c4_print_not_engine_free :
    c4TreeA.Spelling = c4TreeB.Spelling ∧ c4TreeA.Kind = c4TreeB.Kind ∧
    c4TreeA.Loc = c4TreeB.Loc ∧ c4TreeA.Children = c4TreeB.Children ∧
    c4TreeA.Body ≠ c4TreeB.Body ∧ PrintTree c4TreeA ≠ PrintTree c4TreeB := by
  refine ⟨rfl, rfl, rfl, rfl, ?_, ?_⟩ <;> decide

/-- C4 amended: the output of `PrintTree` is determined by the kind strings
reachable through each node's stored `Body` cursor together with the child
structure; two trees with the same `kindShape` print identically, whatever
their other cursor data or cached fields. -/
theorem c4_print_determined_by_kindShape (t1 t2 : Node)
    (h : kindShape t1 = kindShape t2) : PrintTree t1 = PrintTree t2 := by
  simp [PrintTree, printTree_eq_renderKind, h]

/-- Witness for the amended C4 theorem at trees whose cursors differ in
spelling, location and hash but agree on the engine kind. -/
theorem c4_print_determined_by_kindShape_witness :
    PrintTree c4TreeA = PrintTree c4TreeC :=
  c4_print_determined_by_kindShape c4TreeA c4TreeC rfl

/-- C5: `Walk` invokes the supplied function exactly once per reachable node
(the invocation trace has length `nodeCount`), in depth-first pre-order:
the root strictly first, then each child subtree contiguously in stored
order (the trace equals the spec-side `preOrderSpec`, which puts every node
strictly before its descendants and strictly after its parent). -/
theorem c5_walk_preorder (n : Node) :
    walkTrace n = preOrderSpec n ∧
    walkTrace n = n :: preOrderSpecList n.Children ∧
    (walkTrace n).length = nodeCount n := by
  refine ⟨walkTrace_eq_preOrderSpec n, ?_, ?_⟩
  · cases n with
    | mk b s k l cs => simpa [Node.Children, preOrderSpec]
        using walkTrace_eq_preOrderSpec (.mk b s k l cs)
  · rw [walkTrace_eq_preOrderSpec]; exact preOrderSpec_length n

/-- C6: the number of lines emitted by `PrintTree root` equals the number of
invocations `Walk root f` performs, and both equal the number of reachable
nodes. -/
theorem c6_print_lines_eq_walk_count (n : Node) :
    (PrintTree n).length = (walkTrace n).length ∧
    (walkTrace n).length = nodeCount n := by
  constructor
  · rw [walkTrace_eq_preOrderSpec, preOrderSpec_length]
    exact printTree_length n 0
  · rw [walkTrace_eq_preOrderSpec]; exact preOrderSpec_length n

/-- Two successive `PrintTree` calls on the same tree, modelled as the
concatenation of the lines each call appends to the output stream. -/
def printTreeTwice (n : Node) : List String :=
  PrintTree n ++ PrintTree n

/-- C7: calling `PrintTree` twice on the same unmodified tree produces
identical output both times: in the concatenated output stream the first
call's segment equals the second call's segment, both being the
deterministic `PrintTree n`. -/
theorem c7_print_idempotent (n : Node) :
    (printTreeTwice n).take (PrintTree n).length = PrintTree n ∧
    (printTreeTwice n).drop (PrintTree n).length = PrintTree n := by
  constructor
  · simp [printTreeTwice, List.take_left]
  · simp [printTreeTwice, List.drop_left]

/-- `clang.ChildVisitResult` values used by the repository. -/
inductive ChildVisitResult : Type where
  | Continue
  | Recurse
deriving DecidableEq, Repr

/-- How a Go panic escapes the visitor callback: either the runtime
nil-pointer-dereference panic (which carries no caller-written message), or
`panic(fmt.Errorf(...))` with the formatted message. -/
inductive GoPanic : Type where
  | nilPointerDeref
  | errorWithMessage (msg : String)
deriving DecidableEq, Repr

/-- The diagnostics loop shared by both revisions:
`var err error; for _, d := range diagnostics { err = multierror.Append(err, errors.New(d.Spelling())) }`.
`go-multierror.Append` turns a nil error into a one-element aggregate and
appends to an existing aggregate, so the result is `none` for no
diagnostics and otherwise the list of messages in report order. -/
def collectDiagnostics (diagnostics : List String) : Option (List String) :=
  diagnostics.foldl
    (fun err d =>
      match err with
      | none => some [d]
      | some es => some (es ++ [d]))
    none

namespace Unnamed0

/-- The fields the `part_000` revision caches on a `Node` besides the
`Body` handle and the children: `Kind`, `Spelling`, `Loc`. -/
structure NodeData where
  Kind : String
  Spelling : String
  Loc : Location
deriving DecidableEq, Repr

/-- The Go zero value of the cached fields: a `&Node{Body: cursor}`
composite literal leaves `Kind`, `Spelling` and `Loc` at their zero
values. -/
def zeroData : NodeData :=
  { Kind := "", Spelling := "", Loc := { File := "", Line := 0, Col := 0 } }

/-- The mutable state of one `ParseFile` build pass in the `part_000`
revision. Nodes live behind pointers in Go; here each node gets a numeric
id, `nodes` maps ids to the node's `Body` cursor and cached fields,
`nodeFromHash` is the `map[uint32]*Node` (an association list whose most
recent binding shadows older ones, as Go map assignment overwrites), and
`childEdges` records each `parentNode.Children = append(...)` in order. -/
structure BuildState where
  nextId : Nat
  nodes : List (Nat × Cursor × NodeData)
  nodeFromHash : List (Nat × Nat)
  childEdges : List (Nat × Nat)
deriving DecidableEq, Repr

/-- Node lookup by id. -/
def nodeById (s : BuildState) (i : Nat) : Option (Cursor × NodeData) :=
  s.nodes.lookup i

/-- Result of one invocation of the visitor callback. -/
inductive StepOutcome : Type where
  | ok (s : BuildState) (r : ChildVisitResult)
  | panicked (p : GoPanic)
deriving DecidableEq, Repr

/-- State after lines 29-34 of `part_000`: the root node is materialized
from the translation-unit cursor as `&Node{Body: cursor}` (no cached
fields) and registered under `root.Body.HashCursor()`. -/
def initState (rootCursor : Cursor) : BuildState :=
  { nextId := 1,
    nodes := [(0, rootCursor, zeroData)],
    nodeFromHash := [(rootCursor.HashCursor, 0)],
    childEdges := [] }

/-- The visitor callback of `part_000` (lines 35-58): skip null cursors
with Continue; look the parent up by `parent.HashCursor()`, panicking with
a message naming the parent's kind and spelling if absent; otherwise
materialize a node caching `Kind`, `Spelling` and `Loc` from the cursor,
register it under `n.Body.HashCursor()`, append it to the parent's
children, and return Recurse. -/
def visit (s : BuildState) (cursor parent : Cursor) : StepOutcome :=
  if cursor.IsNull then .ok s .Continue
  else
    match s.nodeFromHash.lookup parent.HashCursor with
    | none =>
        .panicked (.errorWithMessage
          ("unable to locate node of parent cursor " ++ parent.KindStr ++
            "(" ++ parent.Spelling ++ ")"))
    | some parentId =>
        let id := s.nextId
        let data : NodeData :=
          { Kind := cursor.KindStr, Spelling := cursor.Spelling,
            Loc := cursor.Loc }
        .ok
          { nextId := id + 1,
            nodes := (id, cursor, data) :: s.nodes,
            nodeFromHash := (cursor.HashCursor, id) :: s.nodeFromHash,
            childEdges := s.childEdges ++ [(parentId, id)] }
          .Recurse

/-- Result of the engine-driven visitation: either the final build state,
or the panic that aborted the process. -/
inductive RunResult : Type where
  | finished (s : BuildState)
  | panicked (p : GoPanic)
deriving DecidableEq, Repr

/-- `cursor.Visit(visit)`: the engine hands the callback each
`(cursor, parent)` pair of the trace in order; a panic aborts the run. -/
def runVisits (s : BuildState) : List (Cursor × Cursor) → RunResult
  | [] => .finished s
  | (c, p) :: rest =>
      match visit s c p with
      | .ok s2 _ => runVisits s2 rest
      | .panicked g => .panicked g

/-- `ParseFile` of the `part_000` revision, over a modelled engine: the
engine supplies the diagnostics list, the translation-unit root cursor and
the visitation trace. Returns the build outcome (the tree, rooted at node
id 0) together with the aggregated error. -/
def ParseFile (diagnostics : List String) (rootCursor : Cursor)
    (trace : List (Cursor × Cursor)) : RunResult × Option (List String) :=
  (runVisits (initState rootCursor) trace, collectDiagnostics diagnostics)

end Unnamed0

namespace CcGo

/-- The only field the `src/cc.go` revision caches on a `Node` besides
`Body` and the children: the source location. Its `Node` has no `Kind` or
`Spelling` fields. -/
structure NodeData where
  Loc : Location
deriving DecidableEq, Repr

/-- `hashFromCursor` from `src/cc.go`:
`fmt.Sprintf("%s_%s", cursor.Kind().String(), NewLocation(cursor.Location()))`,
where a `Location` formats as `"<file>:<line>:<col>"`. -/
def hashFromCursor (cursor : Cursor) : String :=
  cursor.KindStr ++ "_" ++ cursor.Loc.render

/-- The mutable state of one `ParseFile` build pass in the `src/cc.go`
revision; same representation as `Unnamed0.BuildState`, except that the
identity-resolver map `nodeFromHash` is the `map[string]*Node` keyed by
`hashFromCursor` and nodes cache only their location. -/
structure BuildState where
  nextId : Nat
  nodes : List (Nat × Cursor × NodeData)
  nodeFromHash : List (String × Nat)
  childEdges : List (Nat × Nat)
deriving DecidableEq, Repr

/-- Node lookup by id. -/
def nodeById (s : BuildState) (i : Nat) : Option (Cursor × NodeData) :=
  s.nodes.lookup i

/-- The keys currently present in the identity-resolver map. -/
def mapKeys (s : BuildState) : List String :=
  s.nodeFromHash.map Prod.fst

/-- Result of one invocation of the visitor callback. -/
inductive StepOutcome : Type where
  | ok (s : BuildState) (r : ChildVisitResult)
  | panicked (p : GoPanic)
deriving DecidableEq, Repr

/-- State after lines 45-57 of `src/cc.go`: the root node is materialized
from the translation-unit cursor with its presumed location cached, and
registered under `hashFromCursor(root.Body)`. -/
def initState (rootCursor : Cursor) : BuildState :=
  { nextId := 1,
    nodes := [(0, rootCursor, { Loc := rootCursor.Loc })],
    nodeFromHash := [(hashFromCursor rootCursor, 0)],
    childEdges := [] }

/-- The visitor callback of `src/cc.go` (lines 58-79). On a failed parent
lookup the code executes
`panic(fmt.Errorf("unable to locate node of parent cursor %v(%v)", parentNode.Body.Kind(), parentNode.Body.Spelling()))`
— but in the `!ok` branch `parentNode` is the zero value of `*Node`,
i.e. nil, so evaluating `parentNode.Body` dereferences a nil pointer and
the process dies with the runtime nil-pointer panic before `fmt.Errorf`
ever formats the message. -/
def visit (s : BuildState) (cursor parent : Cursor) : StepOutcome :=
  if cursor.IsNull then .ok s .Continue
  else
    match s.nodeFromHash.lookup (hashFromCursor parent) with
    | none => .panicked .nilPointerDeref
    | some parentId =>
        let id := s.nextId
        .ok
          { nextId := id + 1,
            nodes := (id, cursor, { Loc := cursor.Loc }) :: s.nodes,
            nodeFromHash := (hashFromCursor cursor, id) :: s.nodeFromHash,
            childEdges := s.childEdges ++ [(parentId, id)] }
          .Recurse

/-- Result of the engine-driven visitation. -/
inductive RunResult : Type where
  | finished (s : BuildState)
  | panicked (p : GoPanic)
deriving DecidableEq, Repr

/-- `cursor.Visit(visit)` for the `src/cc.go` revision. -/
def runVisits (s : BuildState) : List (Cursor × Cursor) → RunResult
  | [] => .finished s
  | (c, p) :: rest =>
      match visit s c p with
      | .ok s2 _ => runVisits s2 rest
      | .panicked g => .panicked g

/-- `ParseFile` of the `src/cc.go` revision, over a modelled engine. -/
def ParseFile (diagnostics : List String) (rootCursor : Cursor)
    (trace : List (Cursor × Cursor)) : RunResult × Option (List String) :=
  (runVisits (initState rootCursor) trace, collectDiagnostics diagnostics)

/-- The non-null cursors the engine hands to the visitor, in order. -/
def nonNullCursors (trace : List (Cursor × Cursor)) : List Cursor :=
  (trace.map Prod.fst).filter (fun c => !c.IsNull)

/-- Modelled from the spec: precondition (i) of the visitor contract —
every non-null cursor handed to the visitor has a parent that is either
the root cursor or a non-null cursor handed to the visitor earlier.
`avail` accumulates the root plus the non-null cursors seen so far. -/
def wellParented (avail : List Cursor) : List (Cursor × Cursor) → Bool
  | [] => true
  | (c, p) :: rest =>
      if c.IsNull then wellParented avail rest
      else avail.contains p && wellParented (c :: avail) rest

end CcGo

theorem collect_foldl_some (ds es : List String) :
    List.foldl
      (fun err d =>
        match err with
        | none => some [d]
        | some xs => some (xs ++ [d]))
      (some es) ds = some (es ++ ds) := by
  induction ds generalizing es with
  | nil => simp
  | cons d rest ih => simp [List.foldl, ih]

theorem collectDiagnostics_eq (ds : List String) :
    collectDiagnostics ds = if ds.isEmpty then none else some ds := by
  cases ds with
  | nil => rfl
  | cons d rest => simp [collectDiagnostics, List.foldl, collect_foldl_some]

namespace Unnamed0

/-- Shape of a successful callback invocation: either the cursor was null
and the state is untouched, or a fresh node holding the cursor's kind,
spelling and location was created, registered and attached. -/
theorem visit_ok_cases_hashed (s : BuildState) (c p : Cursor) (s2 : BuildState)
    (r : ChildVisitResult) (h : visit s c p = .ok s2 r) :
    (c.IsNull = true ∧ s2 = s ∧ r = .Continue) ∨
    (c.IsNull = false ∧ r = .Recurse ∧
      ∃ pid, s.nodeFromHash.lookup p.HashCursor = some pid ∧
        s2 = { nextId := s.nextId + 1,
               nodes := (s.nextId, c,
                 { Kind := c.KindStr, Spelling := c.Spelling, Loc := c.Loc })
                 :: s.nodes,
               nodeFromHash := (c.HashCursor, s.nextId) :: s.nodeFromHash,
               childEdges := s.childEdges ++ [(pid, s.nextId)] }) := by
  by_cases hnull : c.IsNull = true
  · left
    simp [visit, hnull] at h
    exact ⟨hnull, h.1.symm, h.2.symm⟩
  · right
    simp only [Bool.not_eq_true] at hnull
    simp only [visit, hnull, Bool.false_eq_true, if_false] at h
    cases hlk : s.nodeFromHash.lookup p.HashCursor with
    | none => rw [hlk] at h; exact absurd h (by simp)
    | some pid =>
        rw [hlk] at h
        simp only [StepOutcome.ok.injEq] at h
        exact ⟨hnull, h.2.symm, pid, rfl, h.1.symm⟩

/-- Invariant: every node other than the root carries cached fields equal
to its own `Body` cursor's kind, spelling and location. -/
def dataCopied (s : BuildState) : Prop :=
  ∀ i x d, s.nodes.lookup i = some (x, d) → i ≠ 0 →
    d = { Kind := x.KindStr, Spelling := x.Spelling, Loc := x.Loc }

theorem visit_preserves_dataCopied (s : BuildState) (c p : Cursor)
    (s2 : BuildState) (r : ChildVisitResult) (h : visit s c p = .ok s2 r)
    (hd : dataCopied s) : dataCopied s2 := by
  rcases visit_ok_cases_hashed s c p s2 r h with ⟨_, hs, _⟩ | ⟨_, _, pid, _, hs⟩
  · rwa [hs]
  · subst hs
    intro i x d hlk hi
    by_cases hieq : (i == s.nextId) = true
    · simp only [List.lookup, hieq, Option.some.injEq] at hlk
      cases hlk
      rfl
    · simp only [List.lookup, hieq] at hlk
      exact hd i x d hlk hi

theorem runVisits_preserves_dataCopied (tr : List (Cursor × Cursor)) :
    ∀ (s s2 : BuildState), runVisits s tr = .finished s2 →
      dataCopied s → dataCopied s2 := by
  induction tr with
  | nil =>
      intro s s2 h hd
      simp only [runVisits, RunResult.finished.injEq] at h
      rwa [← h]
  | cons cp rest ih =>
      obtain ⟨c, p⟩ := cp
      intro s s2 h hd
      cases hv : visit s c p with
      | ok s3 r =>
          rw [runVisits, hv] at h
          exact ih s3 s2 h (visit_preserves_dataCopied s c p s3 r hv hd)
      | panicked g =>
          rw [runVisits, hv] at h
          exact absurd h (by simp)

/-- Invariant used for root preservation: ids of new nodes are never 0. -/
def rootIntact (s : BuildState) : Prop :=
  1 ≤ s.nextId ∧ (nodeById s 0).isSome = true

theorem visit_preserves_rootIntact_hashed (s : BuildState) (c p : Cursor)
    (s2 : BuildState) (r : ChildVisitResult) (h : visit s c p = .ok s2 r)
    (hr : rootIntact s) : rootIntact s2 := by
  rcases visit_ok_cases_hashed s c p s2 r h with ⟨_, hs, _⟩ | ⟨_, _, pid, _, hs⟩
  · rwa [hs]
  · subst hs
    refine ⟨Nat.le_succ_of_le hr.1, ?_⟩
    have hne : (0 == s.nextId) = false := by
      have := hr.1
      simp only [beq_eq_false_iff_ne, ne_eq]
      omega
    simpa only [nodeById, List.lookup, hne] using hr.2

theorem runVisits_preserves_rootIntact_hashed (tr : List (Cursor × Cursor)) :
    ∀ (s s2 : BuildState), runVisits s tr = .finished s2 →
      rootIntact s → rootIntact s2 := by
  induction tr with
  | nil =>
      intro s s2 h hr
      simp only [runVisits, RunResult.finished.injEq] at h
      rwa [← h]
  | cons cp rest ih =>
      obtain ⟨c, p⟩ := cp
      intro s s2 h hr
      cases hv : visit s c p with
      | ok s3 r =>
          rw [runVisits, hv] at h
          exact ih s3 s2 h (visit_preserves_rootIntact_hashed s c p s3 r hv hr)
      | panicked g =>
          rw [runVisits, hv] at h
          exact absurd h (by simp)

end Unnamed0

namespace CcGo

theorem visit_ok_cases (s : BuildState) (c p : Cursor) (s2 : BuildState)
    (r : ChildVisitResult) (h : visit s c p = .ok s2 r) :
    (c.IsNull = true ∧ s2 = s ∧ r = .Continue) ∨
    (c.IsNull = false ∧ r = .Recurse ∧
      ∃ pid, s.nodeFromHash.lookup (hashFromCursor p) = some pid ∧
        s2 = { nextId := s.nextId + 1,
               nodes := (s.nextId, c, { Loc := c.Loc }) :: s.nodes,
               nodeFromHash := (hashFromCursor c, s.nextId) :: s.nodeFromHash,
               childEdges := s.childEdges ++ [(pid, s.nextId)] }) := by
  by_cases hnull : c.IsNull = true
  · left
    simp [visit, hnull] at h
    exact ⟨hnull, h.1.symm, h.2.symm⟩
  · right
    simp only [Bool.not_eq_true] at hnull
    simp only [visit, hnull, Bool.false_eq_true, if_false] at h
    cases hlk : s.nodeFromHash.lookup (hashFromCursor p) with
    | none => rw [hlk] at h; exact absurd h (by simp)
    | some pid =>
        rw [hlk] at h
        simp only [StepOutcome.ok.injEq] at h
        exact ⟨hnull, h.2.symm, pid, rfl, h.1.symm⟩

theorem nonNullCursors_cons (c p : Cursor) (tr : List (Cursor × Cursor)) :
    nonNullCursors ((c, p) :: tr) =
      if c.IsNull then nonNullCursors tr else c :: nonNullCursors tr := by
  by_cases hnull : c.IsNull = true <;>
    simp [nonNullCursors, List.filter_cons, hnull]

/-- Invariant used for root preservation. -/
def rootIntact (s : BuildState) : Prop :=
  1 ≤ s.nextId ∧ (nodeById s 0).isSome = true

theorem visit_preserves_rootIntact (s : BuildState) (c p : Cursor)
    (s2 : BuildState) (r : ChildVisitResult) (h : visit s c p = .ok s2 r)
    (hr : rootIntact s) : rootIntact s2 := by
  rcases visit_ok_cases s c p s2 r h with ⟨_, hs, _⟩ | ⟨_, _, pid, _, hs⟩
  · rwa [hs]
  · subst hs
    refine ⟨Nat.le_succ_of_le hr.1, ?_⟩
    have hne : (0 == s.nextId) = false := by
      have := hr.1
      simp only [beq_eq_false_iff_ne, ne_eq]
      omega
    simpa only [nodeById, List.lookup, hne] using hr.2

theorem runVisits_preserves_rootIntact (tr : List (Cursor × Cursor)) :
    ∀ (s s2 : BuildState), runVisits s tr = .finished s2 →
      rootIntact s → rootIntact s2 := by
  induction tr with
  | nil =>
      intro s s2 h hr
      simp only [runVisits, RunResult.finished.injEq] at h
      rwa [← h]
  | cons cp rest ih =>
      obtain ⟨c, p⟩ := cp
      intro s s2 h hr
      cases hv : visit s c p with
      | ok s3 r =>
          rw [runVisits, hv] at h
          exact ih s3 s2 h (visit_preserves_rootIntact s c p s3 r hv hr)
      | panicked g =>
          rw [runVisits, hv] at h
          exact absurd h (by simp)

/-- If the keys present so far are duplicate-free, the fingerprints of the
cursors still to be visited are duplicate-free and none of them is already
present, a finishing run keeps the resolver's keys duplicate-free: every
registration writes a fresh key. -/
theorem runVisits_keys_nodup (tr : List (Cursor × Cursor)) :
    ∀ (s s2 : BuildState), (mapKeys s).Nodup →
      (∀ c ∈ nonNullCursors tr, hashFromCursor c ∉ mapKeys s) →
      ((nonNullCursors tr).map hashFromCursor).Nodup →
      runVisits s tr = .finished s2 → (mapKeys s2).Nodup := by
  induction tr with
  | nil =>
      intro s s2 h1 _ _ hr
      simp only [runVisits, RunResult.finished.injEq] at hr
      rwa [← hr]
  | cons cp rest ih =>
      obtain ⟨c, p⟩ := cp
      intro s s2 h1 h2 h3 hr
      by_cases hnull : c.IsNull = true
      · rw [nonNullCursors_cons, if_pos hnull] at h2 h3
        rw [runVisits] at hr
        simp only [visit, hnull, if_true] at hr
        exact ih s s2 h1 h2 h3 hr
      · simp only [Bool.not_eq_true] at hnull
        rw [nonNullCursors_cons, hnull, if_neg (by simp)] at h2 h3
        rw [runVisits] at hr
        simp only [visit, hnull, Bool.false_eq_true, if_false] at hr
        cases hlk : s.nodeFromHash.lookup (hashFromCursor p) with
        | none => rw [hlk] at hr; exact absurd hr (by simp)
        | some pid =>
            rw [hlk] at hr
            refine ih _ s2 ?_ ?_ ?_ hr
            · refine List.Nodup.cons ?_ h1
              exact h2 c (List.mem_cons_self c _)
            · intro c2 hc2
              simp only [mapKeys, List.map_cons] at *
              intro hmem
              rcases List.mem_cons.mp hmem with heq | hmem2
              · exact (List.nodup_cons.mp h3).1
                  (heq ▸ List.mem_map_of_mem hashFromCursor hc2)
              · exact h2 c2 (List.mem_cons_of_mem c hc2) hmem2
            · simp only [List.map_cons] at h3
              exact (List.nodup_cons.mp h3).2

/-- If every cursor in `avail` is registered in the state and the trace is
well-parented with respect to `avail`, the run finishes without the panic
branch ever executing. -/
theorem runVisits_finishes (tr : List (Cursor × Cursor)) :
    ∀ (avail : List Cursor) (s : BuildState), wellParented avail tr = true →
      (∀ a ∈ avail,
        (s.nodeFromHash.lookup (hashFromCursor a)).isSome = true) →
      ∃ s2, runVisits s tr = .finished s2 := by
  induction tr with
  | nil => exact fun _ s _ _ => ⟨s, rfl⟩
  | cons cp rest ih =>
      obtain ⟨c, p⟩ := cp
      intro avail s hwp hreg
      by_cases hnull : c.IsNull = true
      · rw [wellParented, if_pos hnull] at hwp
        rw [runVisits]
        simp only [visit, hnull, if_true]
        exact ih avail s hwp hreg
      · simp only [Bool.not_eq_true] at hnull
        rw [wellParented, hnull] at hwp
        simp only [Bool.false_eq_true, if_false, Bool.and_eq_true] at hwp
        have hp := hreg p (by simpa [List.contains, List.elem_iff] using hwp.1)
        rw [Option.isSome_iff_exists] at hp
        obtain ⟨pid, hlk⟩ := hp
        rw [runVisits]
        simp only [visit, hnull, Bool.false_eq_true, if_false, hlk]
        refine ih (c :: avail) _ hwp.2 ?_
        intro a ha
        by_cases heq : (hashFromCursor a == hashFromCursor c) = true
        · simp [List.lookup, heq]
        · simp only [List.lookup, heq]
          rcases List.mem_cons.mp ha with rfl | ha2
          · exact absurd (by simp) heq
          · exact hreg a ha2

end CcGo

/-- State reached after one callback invocation (the state is unchanged if
the callback panicked). -/
def CcGo.stepState (s : CcGo.BuildState) (c p : Cursor) : CcGo.BuildState :=
  match CcGo.visit s c p with
  | .ok s2 _ => s2
  | .panicked _ => s

/-- State reached after one callback invocation (the state is unchanged if
the callback panicked). -/
def Unnamed0.stepState (s : Unnamed0.BuildState) (c p : Cursor) :
    Unnamed0.BuildState :=
  match Unnamed0.visit s c p with
  | .ok s2 _ => s2
  | .panicked _ => s

/-- A concrete two-node tree used to instantiate the traversal claims. -/
def exCursorRoot : Cursor :=
  { KindStr := "TranslationUnit", Spelling := "m.c",
    Loc := { File := "m.c", Line := 0, Col := 0 },
    IsNull := false, HashCursor := 1 }

def exCursorFn : Cursor :=
  { KindStr := "FunctionDecl", Spelling := "main",
    Loc := { File := "m.c", Line := 1, Col := 5 },
    IsNull := false, HashCursor := 2 }

def exTree : Node :=
  .mk exCursorRoot "m.c" "TranslationUnit" { File := "m.c", Line := 0, Col := 0 }
    [.mk exCursorFn "main" "FunctionDecl" { File := "m.c", Line := 1, Col := 5 } []]

/-- Witness for C5 at a concrete two-node tree. -/
theorem c5_walk_preorder_witness :
    walkTrace exTree = preOrderSpec exTree ∧
    walkTrace exTree = exTree :: preOrderSpecList exTree.Children ∧
    (walkTrace exTree).length = nodeCount exTree :=
  c5_walk_preorder exTree

/-- Witness for C6 at a concrete two-node tree. -/
theorem c6_print_lines_eq_walk_count_witness :
    (PrintTree exTree).length = (walkTrace exTree).length ∧
    (walkTrace exTree).length = nodeCount exTree :=
  c6_print_lines_eq_walk_count exTree

/-- Witness for C7 at a concrete two-node tree. -/
theorem c7_print_idempotent_witness :
    (printTreeTwice exTree).take (PrintTree exTree).length = PrintTree exTree ∧
    (printTreeTwice exTree).drop (PrintTree exTree).length = PrintTree exTree :=
  c7_print_idempotent exTree

def c1RootCur : Cursor :=
  { KindStr := "TranslationUnit", Spelling := "z.c",
    Loc := { File := "z.c", Line := 0, Col := 0 },
    IsNull := false, HashCursor := 400 }

def c1Kid : Cursor :=
  { KindStr := "VarDecl", Spelling := "v",
    Loc := { File := "z.c", Line := 1, Col := 1 },
    IsNull := false, HashCursor := 401 }

def c1FinalState : Unnamed0.BuildState :=
  Unnamed0.stepState (Unnamed0.initState c1RootCur) c1Kid c1RootCur

/-- C1 counterexample: the root node materialized from the root cursor does
NOT carry kind, spelling and location copied out of the engine — in the
`part_000` revision it is built as `&Node{Body: cursor}`, so its cached
`Kind`, `Spelling` and `Loc` stay at their Go zero values and differ from
what the root cursor reports (and the `src/cc.go` revision's `Node` has no
`Kind`/`Spelling` fields at all). -/
theorem c1_root_fields_not_copied :
    (Unnamed0.ParseFile [] c1RootCur []).1 =
      .finished (Unnamed0.initState c1RootCur) ∧
    Unnamed0.nodeById (Unnamed0.initState c1RootCur) 0 =
      some (c1RootCur, Unnamed0.zeroData) ∧
    Unnamed0.zeroData.Kind ≠ c1RootCur.KindStr ∧
    Unnamed0.zeroData.Spelling ≠ c1RootCur.Spelling ∧
    Unnamed0.zeroData.Loc ≠ c1RootCur.Loc := by
  decide

/-- C1 (amended): every node materialized inside the visitor callback of the
`part_000` revision (every node except the root, which carries only its
cursor handle) caches `Kind`, `Spelling` and `Loc` equal to the values its
cursor reported at the moment of visitation, so reading them later does not
require the engine. -/
theorem c1_callback_fields_copied (diags : List String) (rc : Cursor)
    (tr : List (Cursor × Cursor)) (s : Unnamed0.BuildState) (i : Nat)
    (x : Cursor) (d : Unnamed0.NodeData)
    (hrun : (Unnamed0.ParseFile diags rc tr).1 = .finished s)
    (hi : i ≠ 0) (hlk : Unnamed0.nodeById s i = some (x, d)) :
    d = { Kind := x.KindStr, Spelling := x.Spelling, Loc := x.Loc } := by
  have h0 : Unnamed0.dataCopied (Unnamed0.initState rc) := by
    intro j y e hj hj0
    by_cases hj00 : (j == 0) = true
    · exact absurd (by simpa using hj00) hj0
    · simp [Unnamed0.initState, List.lookup, hj00] at hj
  exact Unnamed0.runVisits_preserves_dataCopied tr (Unnamed0.initState rc) s
    hrun h0 i x d hlk hi

/-- Witness for the amended C1 at a one-child build pass. -/
theorem c1_callback_fields_copied_witness :
    ({ Kind := "VarDecl", Spelling := "v",
       Loc := { File := "z.c", Line := 1, Col := 1 } } : Unnamed0.NodeData) =
      { Kind := c1Kid.KindStr, Spelling := c1Kid.Spelling, Loc := c1Kid.Loc } :=
  c1_callback_fields_copied [] c1RootCur [(c1Kid, c1RootCur)] c1FinalState 1
    c1Kid _ (by decide) (by decide) (by decide)

def c2Root : Cursor :=
  { KindStr := "TranslationUnit", Spelling := "t.c",
    Loc := { File := "t.c", Line := 0, Col := 0 },
    IsNull := false, HashCursor := 500 }

def c2Child : Cursor :=
  { KindStr := "FieldDecl", Spelling := "x",
    Loc := { File := "t.c", Line := 3, Col := 7 },
    IsNull := false, HashCursor := 501 }

def c2Orphan : Cursor :=
  { KindStr := "StructDecl", Spelling := "foo",
    Loc := { File := "t.c", Line := 2, Col := 1 },
    IsNull := false, HashCursor := 502 }

/-- C2: at a failing parent lookup, the `src/cc.go` revision does panic, but
not with the descriptive message the claim (and the code's own `fmt.Errorf`
format string) intends: the `!ok` branch formats the message from
`parentNode`, which is nil in that branch, so the process dies with the
runtime nil-pointer-dereference panic naming nothing. The `part_000`
revision of the same line reads the kind and spelling from the `parent`
cursor and does produce the descriptive message. -/
theorem c2_lookup_failure_panics :
    CcGo.visit (CcGo.initState c2Root) c2Child c2Orphan =
      .panicked .nilPointerDeref ∧
    CcGo.runVisits (CcGo.initState c2Root) [(c2Child, c2Orphan)] =
      .panicked .nilPointerDeref ∧
    Unnamed0.visit (Unnamed0.initState c2Root) c2Child c2Orphan =
      .panicked (.errorWithMessage
        "unable to locate node of parent cursor StructDecl(foo)") := by
  decide

/-- C3: in both revisions `ParseFile` returns a nil error iff the engine
reported zero diagnostics; with n > 0 diagnostics the aggregate error holds
exactly those n messages in report order (`some diags` itself); and whenever
the build pass finishes, the returned tree's root node (id 0) is present. -/
theorem c3_diagnostics_aggregate (diags : List String) (rc : Cursor)
    (tr : List (Cursor × Cursor)) :
    ((Unnamed0.ParseFile diags rc tr).2 = none ↔ diags = []) ∧
    (Unnamed0.ParseFile diags rc tr).2 =
      (if diags.isEmpty then none else some diags) ∧
    ((CcGo.ParseFile diags rc tr).2 = none ↔ diags = []) ∧
    (CcGo.ParseFile diags rc tr).2 =
      (if diags.isEmpty then none else some diags) ∧
    (∀ s, (Unnamed0.ParseFile diags rc tr).1 = .finished s →
      (Unnamed0.nodeById s 0).isSome = true) ∧
    (∀ s, (CcGo.ParseFile diags rc tr).1 = .finished s →
      (CcGo.nodeById s 0).isSome = true) := by
  refine ⟨?_, ?_, ?_, ?_, ?_, ?_⟩
  · simp only [Unnamed0.ParseFile, collectDiagnostics_eq]
    cases diags <;> simp
  · simp only [Unnamed0.ParseFile, collectDiagnostics_eq]
  · simp only [CcGo.ParseFile, collectDiagnostics_eq]
    cases diags <;> simp
  · simp only [CcGo.ParseFile, collectDiagnostics_eq]
  · intro s hs
    have h0 : Unnamed0.rootIntact (Unnamed0.initState rc) := ⟨Nat.le_refl 1, rfl⟩
    exact (Unnamed0.runVisits_preserves_rootIntact_hashed tr (Unnamed0.initState rc)
      s hs h0).2
  · intro s hs
    have h0 : CcGo.rootIntact (CcGo.initState rc) := ⟨Nat.le_refl 1, rfl⟩
    exact (CcGo.runVisits_preserves_rootIntact tr (CcGo.initState rc)
      s hs h0).2

def c3Root : Cursor :=
  { KindStr := "TranslationUnit", Spelling := "e.c",
    Loc := { File := "e.c", Line := 0, Col := 0 },
    IsNull := false, HashCursor := 600 }

/-- Witness for C3 at two concrete diagnostics and an empty trace. -/
theorem c3_diagnostics_aggregate_witness :
    (Unnamed0.ParseFile ["unterminated string", "missing semicolon"]
        c3Root []).2 =
      some ["unterminated string", "missing semicolon"] ∧
    (Unnamed0.nodeById (Unnamed0.initState c3Root) 0).isSome = true := by
  have h := c3_diagnostics_aggregate
    ["unterminated string", "missing semicolon"] c3Root []
  exact ⟨by simpa using h.2.1,
    h.2.2.2.2.1 (Unnamed0.initState c3Root) rfl⟩

/-- C8: in both revisions, when the visitor callback receives a null
cursor it returns `ChildVisit_Continue` with the build state untouched — no
node is created, no fingerprint registered, no child appended, and neither
an error nor a panic is raised. -/
theorem c8_null_cursor_continue (su : Unnamed0.BuildState)
    (sc : CcGo.BuildState) (c p : Cursor) (h : c.IsNull = true) :
    Unnamed0.visit su c p = .ok su .Continue ∧
    CcGo.visit sc c p = .ok sc .Continue :=
  ⟨by simp [Unnamed0.visit, h], by simp [CcGo.visit, h]⟩

def c8Root : Cursor :=
  { KindStr := "TranslationUnit", Spelling := "n.c",
    Loc := { File := "n.c", Line := 0, Col := 0 },
    IsNull := false, HashCursor := 700 }

def nullCursor : Cursor :=
  { KindStr := "NoDeclFound", Spelling := "",
    Loc := { File := "", Line := 0, Col := 0 },
    IsNull := true, HashCursor := 701 }

/-- Witness for C8 at a concrete null cursor. -/
theorem c8_null_cursor_continue_witness :
    Unnamed0.visit (Unnamed0.initState c8Root) nullCursor c8Root =
      .ok (Unnamed0.initState c8Root) .Continue ∧
    CcGo.visit (CcGo.initState c8Root) nullCursor c8Root =
      .ok (CcGo.initState c8Root) .Continue :=
  c8_null_cursor_continue (Unnamed0.initState c8Root) (CcGo.initState c8Root)
    nullCursor c8Root rfl

def c9Root : Cursor :=
  { KindStr := "TranslationUnit", Spelling := "m.c",
    Loc := { File := "m.c", Line := 0, Col := 0 },
    IsNull := false, HashCursor := 800 }

/-- Two distinct sibling cursors (different spellings and engine hashes)
carrying the same kind at the same reported source location — the
macro-expansion collision the spec itself documents for the structural
fingerprint. -/
def c9A : Cursor :=
  { KindStr := "IntegerLiteral", Spelling := "1",
    Loc := { File := "m.c", Line := 3, Col := 5 },
    IsNull := false, HashCursor := 801 }

def c9B : Cursor :=
  { KindStr := "IntegerLiteral", Spelling := "2",
    Loc := { File := "m.c", Line := 3, Col := 5 },
    IsNull := false, HashCursor := 802 }

def c9S1 : CcGo.BuildState := CcGo.stepState (CcGo.initState c9Root) c9A c9Root

def c9S2 : CcGo.BuildState := CcGo.stepState c9S1 c9B c9Root

/-- C9 counterexample: with two distinct cursors of equal structural
fingerprint, the second registration of the build pass writes a key that is
already present — the run finishes with a duplicate key in the resolver
map, so the map is not write-once-per-fingerprint. -/
theorem c9_fingerprint_overwrite :
    c9A ≠ c9B ∧
    CcGo.hashFromCursor c9A = CcGo.hashFromCursor c9B ∧
    CcGo.runVisits (CcGo.initState c9Root) [(c9A, c9Root), (c9B, c9Root)] =
      .finished c9S2 ∧
    (c9S1.nodeFromHash.lookup (CcGo.hashFromCursor c9B)).isSome = true ∧
    ¬ (CcGo.mapKeys c9S2).Nodup := by
  refine ⟨by decide, by decide, by decide, by decide, by decide⟩

/-- C9 (amended): provided the fingerprints of the root cursor and of all
non-null cursors delivered during the pass are pairwise distinct, each
fingerprint key is written to the identity-resolver map at most once: a
finishing build pass ends with duplicate-free keys, so no registration ever
overwrote an existing entry. -/
theorem c9_write_once (rc : Cursor) (tr : List (Cursor × Cursor))
    (s2 : CcGo.BuildState)
    (hinj : ((rc :: CcGo.nonNullCursors tr).map CcGo.hashFromCursor).Nodup)
    (hrun : CcGo.runVisits (CcGo.initState rc) tr = .finished s2) :
    (CcGo.mapKeys s2).Nodup := by
  have h1 : (CcGo.mapKeys (CcGo.initState rc)).Nodup := by
    simp [CcGo.mapKeys, CcGo.initState]
  rw [List.map_cons, List.nodup_cons] at hinj
  refine CcGo.runVisits_keys_nodup tr (CcGo.initState rc) s2 h1 ?_ hinj.2 hrun
  intro c hc
  simp only [CcGo.mapKeys, CcGo.initState, List.map_cons, List.map_nil,
    List.mem_singleton]
  intro heq
  exact hinj.1 (heq ▸ List.mem_map_of_mem CcGo.hashFromCursor hc)

def w9Root : Cursor :=
  { KindStr := "TranslationUnit", Spelling := "k.c",
    Loc := { File := "k.c", Line := 0, Col := 0 },
    IsNull := false, HashCursor := 810 }

def w9A : Cursor :=
  { KindStr := "FunctionDecl", Spelling := "main",
    Loc := { File := "k.c", Line := 1, Col := 5 },
    IsNull := false, HashCursor := 811 }

def w9B : Cursor :=
  { KindStr := "CompoundStmt", Spelling := "",
    Loc := { File := "k.c", Line := 1, Col := 16 },
    IsNull := false, HashCursor := 812 }

def w9S : CcGo.BuildState :=
  CcGo.stepState (CcGo.stepState (CcGo.initState w9Root) w9A w9Root) w9B w9A

/-- Witness for the amended C9 at a collision-free two-node pass. -/
theorem c9_write_once_witness : (CcGo.mapKeys w9S).Nodup :=
  c9_write_once w9Root [(w9A, w9Root), (w9B, w9A)] w9S (by decide) (by decide)

/-- C10: under precondition (i) — every non-null visited cursor's parent is
the root cursor or a non-null cursor visited earlier (`wellParented`) — and
precondition (ii) — the fingerprints of the pass are injective — the
parent-fingerprint lookup always succeeds and the panic branch is
unreachable: the run always finishes. (The proof does not even need
precondition (ii): the root is registered before the visitor starts and
each node is registered during its own visit, so the parent's key is always
present.) -/
theorem c10_wellparented_no_panic (rc : Cursor) (tr : List (Cursor × Cursor))
    (hwp : CcGo.wellParented [rc] tr = true)
    (hinj : ((rc :: CcGo.nonNullCursors tr).map CcGo.hashFromCursor).Nodup) :
    ∃ s2, CcGo.runVisits (CcGo.initState rc) tr = .finished s2 := by
  refine CcGo.runVisits_finishes tr [rc] (CcGo.initState rc) hwp ?_
  intro a ha
  simp only [List.mem_singleton] at ha
  subst ha
  have hbeq : (CcGo.hashFromCursor a == CcGo.hashFromCursor a) = true :=
    beq_self_eq_true _
  simp [CcGo.initState, List.lookup, hbeq]

def c10Root : Cursor :=
  { KindStr := "TranslationUnit", Spelling := "w.c",
    Loc := { File := "w.c", Line := 0, Col := 0 },
    IsNull := false, HashCursor := 900 }

def c10A : Cursor :=
  { KindStr := "FunctionDecl", Spelling := "main",
    Loc := { File := "w.c", Line := 1, Col := 5 },
    IsNull := false, HashCursor := 901 }

def c10B : Cursor :=
  { KindStr := "ReturnStmt", Spelling := "",
    Loc := { File := "w.c", Line := 1, Col := 13 },
    IsNull := false, HashCursor := 902 }

/-- Witness for C10 at a well-parented two-level trace. -/
theorem c10_wellparented_no_panic_witness :
    ∃ s2, CcGo.runVisits (CcGo.initState c10Root)
      [(c10A, c10Root), (c10B, c10A)] = .finished s2 :=
  c10_wellparented_no_panic c10Root [(c10A, c10Root), (c10B, c10A)]
    (by decide) (by decide)
